import Mathlib

/-!
Shallow embedding of `TheBlackjack.py` (single-player Blackjack game).

Modelling conventions:
* Python `int` is `ℤ`; monetary amounts (`float` balances/bets, used only
  with `+`, `-`, `*`) are `ℚ`.
* `Card` is a structure with an unconstrained integer rank; the validating
  constructor `Card.make` embeds `Card.__init__`, which raises `ValueError`
  for ranks outside `[1, 13]` (modelled as `Except String Card`).
* A `Hand` is its ordered list of cards.
* Randomness: `random.shuffle` is an unknown permutation, passed as an
  explicit `shuffle` parameter and constrained to be a permutation in the
  theorems that need it.
* During a round, the successive results of `deck.draw_card()` form a card
  stream, modelled as a `List Card` consumed from the head; an exhausted
  stream makes the round functions return `none` (the reshuffle-on-empty
  behaviour of `Deck.draw_card` itself is modelled and verified separately
  on the `Deck` structure).
* `input()` during the player's turn is a stream of strings, consumed from
  the head; an exhausted stream (the program would block forever) gives
  `none`.
-/

/-- `CardSuit`: the four suits. -/
inductive Suit where
  | hearts
  | diamonds
  | clubs
  | spades
deriving DecidableEq, Repr

/-- One playing card: `rank` is the stored Python integer attribute. -/
structure Card where
  rank : ℤ
  suit : Suit
deriving DecidableEq, Repr

/-- `Card.__init__`: raises `ValueError` when the rank is outside `[1, 13]`,
otherwise stores the rank and suit. -/
def Card.make (rank : ℤ) (suit : Suit) : Except String Card :=
  if rank < 1 ∨ rank > 13 then
    .error "Card rank must be between 1 and 13"
  else
    .ok ⟨rank, suit⟩

/-- `Card.value`: `if self.rank > 10: return 10 elif self.rank == 1: return 11
else: return self.rank`. -/
def Card.value (c : Card) : ℤ :=
  if c.rank > 10 then 10
  else if c.rank = 1 then 11
  else c.rank

/-- A hand is its ordered list of cards (`Hand.cards`). -/
abbrev Hand := List Card

/-- The ace-handling loop body of `Hand.calculate_score`:
`if score + 11 <= 21: score += 11 else: score += 1`. -/
def aceStep (score : ℤ) (_ : Card) : ℤ :=
  if score + 11 ≤ 21 then score + 11 else score + 1

/-- `Hand.calculate_score`: base score is the sum of non-ace values, then each
ace in hand order adds 11 if that keeps the running score ≤ 21, else 1. -/
def Hand.calculate_score (cards : Hand) : ℤ :=
  let non_aces := cards.filter (fun c => c.rank ≠ 1)
  let aces := cards.filter (fun c => c.rank = 1)
  let score := (non_aces.map Card.value).sum
  aces.foldl aceStep score

/-- `Hand.is_blackjack`: exactly two cards scoring 21. -/
def Hand.is_blackjack (cards : Hand) : Bool :=
  cards.length = 2 && Hand.calculate_score cards = 21

/-- Sum of the values of the non-ace cards of a hand (the claims' `S`). -/
def Hand.nonAceSum (cards : Hand) : ℤ :=
  ((cards.filter (fun c => c.rank ≠ 1)).map Card.value).sum

/-- Number of aces in a hand (the claims' `k`). -/
def Hand.aceCount (cards : Hand) : ℕ :=
  (cards.filter (fun c => c.rank = 1)).length

/-- All cards of a hand were validly constructed (`Card.__init__` invariant). -/
def Hand.valid (cards : Hand) : Prop :=
  ∀ c ∈ cards, 1 ≤ c.rank ∧ c.rank ≤ 13

instance (cards : Hand) : Decidable (Hand.valid cards) := by
  unfold Hand.valid; infer_instance

/-- `Player.bet`: returns failure leaving the balance unchanged when
`amount > balance`, otherwise debits the balance and returns success.
(The player's mutable state relevant here is just the balance.) -/
def Player.bet (balance amount : ℚ) : Bool × ℚ :=
  if amount > balance then (false, balance)
  else (true, balance - amount)

/-! ## Deck (`Deck.reset` / `Deck.draw_card`)

The deck stores `num_decks` and a mutable card list; `cards.pop()` removes
the LAST element of the Python list. -/

/-- The list of ranks produced by `range(1, 14)`. -/
def allRanks : List ℤ := [1, 2, 3, 4, 5, 6, 7, 8, 9, 10, 11, 12, 13]

/-- The four suits, in `CardSuit` declaration order. -/
def allSuits : List Suit := [.hearts, .diamonds, .clubs, .spades]

/-- The card list built by `Deck.reset` before shuffling:
`[Card(rank, suit) for suit in CardSuit for rank in range(1, 14)
  for _ in range(self.num_decks)]`. -/
def freshCards (num_decks : ℕ) : List Card :=
  allSuits.flatMap fun s =>
    allRanks.flatMap fun r =>
      List.replicate num_decks ⟨r, s⟩

/-- Deck state: the remembered `num_decks` and the current card list. -/
structure Deck where
  num_decks : ℕ
  cards : List Card
deriving DecidableEq, Repr

/-- `Deck.reset`: rebuild the full card list and shuffle it.  The unknown
permutation performed by `random.shuffle` is the `shuffle` parameter. -/
def Deck.reset (d : Deck) (shuffle : List Card → List Card) : Deck :=
  ⟨d.num_decks, shuffle (freshCards d.num_decks)⟩

/-- `Deck.draw_card`: reset first if the card list is empty, then
`cards.pop()` (remove and return the last element).  Returns `none` only in
the unreachable case where the list is still empty after the reset. -/
def Deck.draw_card (d : Deck) (shuffle : List Card → List Card) :
    Option (Card × Deck) :=
  let d' := if d.cards.isEmpty then d.reset shuffle else d
  match d'.cards.getLast? with
  | none => none
  | some c => some (c, ⟨d'.num_decks, d'.cards.dropLast⟩)

/-- `n` successive `draw_card` calls, returning the drawn cards in draw
order together with the final deck state. -/
def Deck.drawMany : ℕ → Deck → (List Card → List Card) →
    Option (List Card × Deck)
  | 0, d, _ => some ([], d)
  | n + 1, d, shuffle =>
    match d.draw_card shuffle with
    | none => none
    | some (c, d') =>
      (Deck.drawMany n d' shuffle).map fun p => (c :: p.1, p.2)

/-! ## Round engine (`BlackjackGame`)

`play_round` and the turn helpers are driven by the stream of cards the
deck will produce (head = next draw) and the stream of `input()` strings. -/

/-- Outcome, final balance, both hands and the unconsumed card stream of a
finished `play_round` call. -/
structure RoundResult where
  outcome : String
  balance : ℚ
  playerHand : Hand
  dealerHand : Hand
  deck : List Card
deriving DecidableEq, Repr

/-- Python's `str.lower()`, character by character (the inputs compared
against here are ASCII). -/
def strLower (s : String) : String := ⟨s.data.map Char.toLower⟩

/-- `BlackjackGame._player_turn`, driven by the card stream and the stream
of `input()` answers.  Each loop iteration first forces a stand on a score
of exactly 21, then reads an answer: `h`/`hit` draws (busting ends the turn
with `"Bust"`), `s`/`stand` ends the turn, anything else re-prompts.
Returns the result string, the player's final hand, and the remaining card
stream; `none` if a needed input or card is missing. -/
def player_turn (deck : List Card) (actions : List String) (hand : Hand) :
    Option (String × Hand × List Card) :=
  if Hand.calculate_score hand = 21 then some ("Stand", hand, deck)
  else
    match actions with
    | [] => none
    | a :: rest =>
      let action := strLower a
      if action = "h" ∨ action = "hit" then
        match deck with
        | [] => none
        | c :: deck' =>
          let hand' := hand ++ [c]
          if Hand.calculate_score hand' > 21 then some ("Bust", hand', deck')
          else player_turn deck' rest hand'
      else if action = "s" ∨ action = "stand" then some ("Stand", hand, deck)
      else player_turn deck rest hand

/-- `BlackjackGame._dealer_turn`: draw while the score is below 17, then
report `"Bust"` if the final score exceeds 21 and `"Stand"` otherwise.
Returns `none` if the card stream runs out mid-turn. -/
def dealer_turn (deck : List Card) (hand : Hand) :
    Option (String × Hand × List Card) :=
  if Hand.calculate_score hand < 17 then
    match deck with
    | [] => none
    | c :: deck' => dealer_turn deck' (hand ++ [c])
  else
    some (if Hand.calculate_score hand > 21 then "Bust" else "Stand",
      hand, deck)

/-- `BlackjackGame._compare_hands` (with `_pay_winnings` inlined:
`balance += bet_amount * multiplier`): strictly higher player score pays
double the bet, strictly lower pays nothing, a tie refunds the bet. -/
def compare_hands (balance bet_amount : ℚ) (playerHand dealerHand : Hand)
    (deck : List Card) : RoundResult :=
  let player_score := Hand.calculate_score playerHand
  let dealer_score := Hand.calculate_score dealerHand
  if player_score > dealer_score then
    ⟨"Win", balance + bet_amount * 2, playerHand, dealerHand, deck⟩
  else if player_score < dealer_score then
    ⟨"Lose", balance, playerHand, dealerHand, deck⟩
  else
    ⟨"Push", balance + bet_amount, playerHand, dealerHand, deck⟩

/-- `BlackjackGame.play_round`: reset hands, place the bet (aborting with
`"Insufficient funds"` on failure), deal player/dealer alternately twice,
settle naturals, then run the player's and dealer's turns and compare.
`balance` is the player's balance before the call; the card stream is the
sequence of cards `draw_card` will return. -/
def play_round (balance bet_amount : ℚ) (deck : List Card)
    (actions : List String) : Option RoundResult :=
  match Player.bet balance bet_amount with
  | (false, b) => some ⟨"Insufficient funds", b, [], [], deck⟩
  | (true, b) =>
    match deck with
    | p1 :: d1 :: p2 :: d2 :: deck' =>
      let playerHand : Hand := [p1, p2]
      let dealerHand : Hand := [d1, d2]
      if Hand.is_blackjack playerHand then
        if !Hand.is_blackjack dealerHand then
          some ⟨"Win", b + bet_amount * 2.5, playerHand, dealerHand, deck'⟩
        else
          some ⟨"Push", b, playerHand, dealerHand, deck'⟩
      else
        match player_turn deck' actions playerHand with
        | none => none
        | some (player_result, playerHand', deck'') =>
          if player_result = "Bust" then
            some ⟨"Lose", b, playerHand', dealerHand, deck''⟩
          else
            match dealer_turn deck'' dealerHand with
            | none => none
            | some (dealer_result, dealerHand', deck''') =>
              if dealer_result = "Bust" then
                some ⟨"Win", b + bet_amount * 2, playerHand', dealerHand',
                  deck'''⟩
              else
                some (compare_hands b bet_amount playerHand' dealerHand'
                  deck''')
    | _ => none

/-! ## Scoring lemmas -/

/-- Closed form of the ace loop: from a non-negative base, the first ace adds
11 exactly when the base is ≤ 10, and every later ace adds 1. -/
theorem foldl_aceStep (l : List Card) (base : ℤ) (hbase : 0 ≤ base) :
    l.foldl aceStep base =
      if l.length = 0 then base
      else if base ≤ 10 then base + 10 + l.length
      else base + l.length := by
  induction l generalizing base with
  | nil => simp
  | cons a l ih =>
    have h11 : (0 : ℤ) ≤ base + 11 := by omega
    have h1 : (0 : ℤ) ≤ base + 1 := by omega
    by_cases hb : base ≤ 10
    · have : aceStep base a = base + 11 := by simp [aceStep]; omega
      rw [List.foldl_cons, this, ih (base + 11) h11]
      rcases l with _ | ⟨b, l⟩
      · simp; omega
      · have : ¬ (base + 11 ≤ 10) := by omega
        simp only [List.length_cons, List.length_nil]
        split <;> split <;> push_cast <;> omega
    · have : aceStep base a = base + 1 := by simp [aceStep]; omega
      rw [List.foldl_cons, this, ih (base + 1) h1]
      simp only [List.length_cons]
      split <;> split <;> push_cast <;> omega

/-- Every validly constructed non-ace card has value between 2 and 10. -/
theorem value_nonAce_bounds (c : Card) (h1 : 1 ≤ c.rank) (h2 : c.rank ≤ 13)
    (hne : c.rank ≠ 1) : 2 ≤ c.value ∧ c.value ≤ 10 := by
  unfold Card.value
  split_ifs <;> omega

/-- For a valid hand the non-ace sum is non-negative. -/
theorem nonAceSum_nonneg (cards : Hand) (hv : Hand.valid cards) :
    0 ≤ Hand.nonAceSum cards := by
  unfold Hand.nonAceSum
  apply List.sum_nonneg
  intro x hx
  simp only [List.mem_map, List.mem_filter] at hx
  obtain ⟨c, ⟨hc, hcne⟩, rfl⟩ := hx
  have := hv c hc
  have : 2 ≤ c.value ∧ c.value ≤ 10 := by
    apply value_nonAce_bounds c this.1 this.2
    simpa using hcne
  omega

/-- Closed form of `Hand.calculate_score` on valid hands: `S + k` when there
are no aces or `S ≥ 11`, and `S + 10 + k` when there is an ace and `S ≤ 10`. -/
theorem calculate_score_closed_form (cards : Hand) (hv : Hand.valid cards) :
    Hand.calculate_score cards =
      if Hand.aceCount cards = 0 then Hand.nonAceSum cards
      else if Hand.nonAceSum cards ≤ 10 then
        Hand.nonAceSum cards + 10 + Hand.aceCount cards
      else Hand.nonAceSum cards + Hand.aceCount cards := by
  have hS := nonAceSum_nonneg cards hv
  unfold Hand.nonAceSum at hS
  simp only [Hand.calculate_score]
  rw [foldl_aceStep _ _ hS]
  simp only [Hand.nonAceSum, Hand.aceCount]

/-! ## Bet and turn lemmas -/

/-- A bet covered by the balance succeeds and debits it. -/
theorem Player.bet_of_le (balance amount : ℚ) (h : amount ≤ balance) :
    Player.bet balance amount = (true, balance - amount) := by
  unfold Player.bet
  rw [if_neg (not_lt.mpr h)]

/-- A bet exceeding the balance fails and leaves it unchanged. -/
theorem Player.bet_of_gt (balance amount : ℚ) (h : balance < amount) :
    Player.bet balance amount = (false, balance) := by
  unfold Player.bet
  rw [if_pos h]

/-- Unfolding `dealer_turn` below the threshold: the dealer draws. -/
theorem dealer_turn_hit (c : Card) (deck : List Card) (hand : Hand)
    (h : Hand.calculate_score hand < 17) :
    dealer_turn (c :: deck) hand = dealer_turn deck (hand ++ [c]) := by
  rw [dealer_turn.eq_def, if_pos h]

/-- Unfolding `dealer_turn` at or above the threshold: the dealer stops. -/
theorem dealer_turn_stop (deck : List Card) (hand : Hand)
    (h : 17 ≤ Hand.calculate_score hand) :
    dealer_turn deck hand =
      some (if 21 < Hand.calculate_score hand then "Bust" else "Stand",
        hand, deck) := by
  rw [dealer_turn.eq_def, if_neg (not_lt.mpr h)]

/-- Whenever `dealer_turn` finishes, the final hand scores at least 17 and
the result string is `"Bust"` exactly when that score exceeds 21. -/
theorem dealer_turn_final (deck : List Card) (hand : Hand)
    (res : String) (hand' : Hand) (deck' : List Card)
    (h : dealer_turn deck hand = some (res, hand', deck')) :
    17 ≤ Hand.calculate_score hand' ∧
      (res = "Bust" ↔ 21 < Hand.calculate_score hand') := by
  induction deck generalizing hand with
  | nil =>
    rw [dealer_turn.eq_def] at h
    split at h
    · exact absurd h (by simp)
    · rename_i hge
      simp only [Option.some.injEq, Prod.mk.injEq] at h
      obtain ⟨hres, hhand, -⟩ := h
      subst hhand
      refine ⟨by omega, ?_⟩
      subst hres
      split_ifs with h21
      · simp [h21]
      · simpa using h21
  | cons c deck ih =>
    rw [dealer_turn.eq_def] at h
    split at h
    · exact ih (hand ++ [c]) h
    · rename_i hge
      simp only [Option.some.injEq, Prod.mk.injEq] at h
      obtain ⟨hres, hhand, -⟩ := h
      subst hhand
      refine ⟨by omega, ?_⟩
      subst hres
      split_ifs with h21
      · simp [h21]
      · simpa using h21

/-! ## Deck lemmas -/

/-- The full fresh deck holds `52 × num_decks` cards. -/
theorem freshCards_length (n : ℕ) : (freshCards n).length = 52 * n := by
  simp only [freshCards, allSuits, allRanks, List.flatMap_cons,
    List.flatMap_nil, List.length_append, List.length_replicate,
    List.length_nil]
  omega

/-- The 52 distinct rank–suit combinations, in deck-building order. -/
theorem freshCards_eq_flatMap_replicate (n : ℕ) :
    freshCards n =
      (allSuits.flatMap fun s => allRanks.map fun r => (⟨r, s⟩ : Card)).flatMap
        (List.replicate n) := by
  simp [freshCards, allSuits, allRanks]

/-- Counting in a `replicate`-expansion multiplies the count by `n`. -/
theorem count_flatMap_replicate (n : ℕ) (c : Card) :
    ∀ l : List Card, (l.flatMap (List.replicate n)).count c = n * l.count c := by
  intro l
  induction l with
  | nil => simp
  | cons a l ih =>
    simp only [List.flatMap_cons, List.count_append, ih,
      List.count_replicate, List.count_cons]
    split_ifs <;> ring

/-- Each valid rank–suit pair occurs once among the 52 combinations. -/
theorem count_combinations (c : Card) (h1 : 1 ≤ c.rank) (h2 : c.rank ≤ 13) :
    (allSuits.flatMap fun s => allRanks.map fun r => (⟨r, s⟩ : Card)).count c
      = 1 := by
  obtain ⟨r, s⟩ := c
  simp only at h1 h2
  cases s <;> interval_cases r <;> decide

/-- Every valid rank–suit pair occurs exactly `num_decks` times in the fresh
deck. -/
theorem freshCards_count (n : ℕ) (c : Card)
    (h1 : 1 ≤ c.rank) (h2 : c.rank ≤ 13) :
    (freshCards n).count c = n := by
  rw [freshCards_eq_flatMap_replicate, count_flatMap_replicate,
    count_combinations c h1 h2, mul_one]

/-- Drawing as many cards as the deck holds empties it and returns the cards
in draw order (the reverse of the stored list, since `pop` takes the last
element). -/
theorem drawMany_exact (n : ℕ) (shuffle : List Card → List Card)
    (cards : List Card) (hne : cards ≠ []) :
    Deck.drawMany cards.length ⟨n, cards⟩ shuffle =
      some (cards.reverse, ⟨n, []⟩) := by
  induction cards using List.reverseRecOn with
  | nil => exact absurd rfl hne
  | append_singleton l a ih =>
    have hlen : (l ++ [a]).length = l.length + 1 := by simp
    rw [hlen]
    have hdraw : Deck.draw_card ⟨n, l ++ [a]⟩ shuffle = some (a, ⟨n, l⟩) := by
      have hne' : (l ++ [a]).isEmpty = false := by simp
      unfold Deck.draw_card
      simp [hne', List.getLast?_concat, List.dropLast_concat]
    rw [Deck.drawMany, hdraw]
    rcases eq_or_ne l [] with rfl | hl
    · simp [Deck.drawMany]
    · simp [ih hl]

/-- Explicit lemma name for the simp set: `drawMany` unfolding on `succ`. -/
theorem drawMany_succ (k : ℕ) (d : Deck) (shuffle : List Card → List Card) :
    Deck.drawMany (k + 1) d shuffle =
      match d.draw_card shuffle with
      | none => none
      | some (c, d') =>
        (Deck.drawMany k d' shuffle).map fun p => (c :: p.1, p.2) := by
  rw [Deck.drawMany]

/-! ## Claims -/

/-- C1 (counterexample): the hand Ten–Ace–Ace has non-ace sum `S = 10` and
`k = 2` aces, so `S + k = 12 ≤ 21`, yet `calculate_score` returns 22: the
greedy loop keeps the first ace at 11 even though the second ace then forces
an avoidable bust. -/
theorem C1_greedy_ace_counterexample :
    Hand.valid [(⟨10, .hearts⟩ : Card), ⟨1, .hearts⟩, ⟨1, .spades⟩]
    ∧ Hand.nonAceSum [(⟨10, .hearts⟩ : Card), ⟨1, .hearts⟩, ⟨1, .spades⟩]
        + Hand.aceCount [(⟨10, .hearts⟩ : Card), ⟨1, .hearts⟩, ⟨1, .spades⟩]
        ≤ 21
    ∧ 21 < Hand.calculate_score
        [(⟨10, .hearts⟩ : Card), ⟨1, .hearts⟩, ⟨1, .spades⟩] := by
  decide

/-- C1 (amended): for a hand of validly constructed cards with `k` aces and
non-ace sum `S`, `calculate_score` stays at or below 21 provided `S + k ≤ 21`
AND the greedy exception does not fire: either there is no ace, or `S ≥ 11`,
or keeping one ace at 11 still fits (`S + 10 + k ≤ 21`). -/
theorem C1_score_bound_amended (cards : Hand) (hv : Hand.valid cards)
    (hsum : Hand.nonAceSum cards + Hand.aceCount cards ≤ 21)
    (hexc : Hand.aceCount cards = 0 ∨ 10 < Hand.nonAceSum cards ∨
      Hand.nonAceSum cards + 10 + Hand.aceCount cards ≤ 21) :
    Hand.calculate_score cards ≤ 21 := by
  rcases hexc with h | h | h <;>
    rw [calculate_score_closed_form cards hv] <;> split_ifs <;> omega

/-- C1 (witness): Ace–Nine–Ace satisfies both hypotheses and scores ≤ 21. -/
theorem C1_score_bound_witness :
    Hand.calculate_score
      [(⟨1, Suit.hearts⟩ : Card), ⟨9, Suit.diamonds⟩, ⟨1, Suit.spades⟩]
      ≤ 21 :=
  C1_score_bound_amended _ (by decide) (by decide) (by decide)

/-- C2 (code bug, evaluated): with both initial hands natural Blackjacks,
`play_round` reports `"Push"` but never refunds the bet, so a 1000 balance
with a 100 bet ends at 900, not 1000 as the spec's exact-refund rule says. -/
theorem C2_double_natural_keeps_bet :
    Hand.is_blackjack [(⟨1, Suit.hearts⟩ : Card), ⟨13, Suit.spades⟩] = true
    ∧ Hand.is_blackjack
        [(⟨1, Suit.diamonds⟩ : Card), ⟨13, Suit.diamonds⟩] = true
    ∧ play_round 1000 100
        [⟨1, Suit.hearts⟩, ⟨1, Suit.diamonds⟩,
          ⟨13, Suit.spades⟩, ⟨13, Suit.diamonds⟩] [] =
        some ⟨"Push", 900,
          [⟨1, Suit.hearts⟩, ⟨13, Suit.spades⟩],
          [⟨1, Suit.diamonds⟩, ⟨13, Suit.diamonds⟩], []⟩
    ∧ (900 : ℚ) ≠ 1000 := by
  have hb : Player.bet 1000 100 = (true, 1000 - 100) :=
    Player.bet_of_le 1000 100 (by norm_num)
  have hbj1 : Hand.is_blackjack
      [(⟨1, Suit.hearts⟩ : Card), ⟨13, Suit.spades⟩] = true := by decide
  have hbj2 : Hand.is_blackjack
      [(⟨1, Suit.diamonds⟩ : Card), ⟨13, Suit.diamonds⟩] = true := by decide
  have h900 : (1000 : ℚ) - 100 = 900 := by norm_num
  refine ⟨hbj1, hbj2, ?_, by norm_num⟩
  simp [play_round, hb, hbj1, hbj2, h900]

/-- C7: a bet above the balance fails leaving the balance unchanged, and
`play_round` then aborts with `"Insufficient funds"`, empty hands, the card
stream untouched, and the balance unchanged. -/
theorem C7_insufficient_funds_aborts (balance amount : ℚ)
    (h : balance < amount) :
    Player.bet balance amount = (false, balance)
    ∧ ∀ (deck : List Card) (actions : List String),
        play_round balance amount deck actions =
          some ⟨"Insufficient funds", balance, [], [], deck⟩ := by
  have hb := Player.bet_of_gt balance amount h
  exact ⟨hb, fun deck actions => by simp [play_round, hb]⟩

/-- C7 (witness): a 100 bet on a 50 balance aborts and changes nothing. -/
theorem C7_insufficient_funds_witness :
    Player.bet 50 100 = (false, 50)
    ∧ play_round 50 100 [] [] =
        some ⟨"Insufficient funds", 50, [], [], []⟩ := by
  have h := C7_insufficient_funds_aborts 50 100 (by norm_num)
  exact ⟨h.1, h.2 [] []⟩

/-- C8: for every rank in `[1, 13]` and every suit, `Card.value` follows the
table — ace 11, ranks 2–10 at face value, face cards 10. -/
theorem C8_card_value_table (r : ℤ) (s : Suit) (h1 : 1 ≤ r) (h2 : r ≤ 13) :
    Card.value ⟨r, s⟩ = if r = 1 then 11 else if r ≤ 10 then r else 10 := by
  simp only [Card.value]
  split_ifs <;> omega

/-- C8 (witness): the king of spades is worth 10. -/
theorem C8_card_value_witness :
    Card.value ⟨13, Suit.spades⟩ =
      if (13 : ℤ) = 1 then 11 else if (13 : ℤ) ≤ 10 then 13 else 10 :=
  C8_card_value_table 13 Suit.spades (by norm_num) (by norm_num)

/-- C9: `Card.make` rejects every rank outside `[1, 13]` with the rank
validation error, accepts every rank inside storing it unchanged, and every
successfully constructed card has rank in `[1, 13]`. -/
theorem C9_rank_validation (r : ℤ) (s : Suit) :
    ((r < 1 ∨ 13 < r) →
      Card.make r s = .error "Card rank must be between 1 and 13")
    ∧ (1 ≤ r → r ≤ 13 → Card.make r s = .ok ⟨r, s⟩)
    ∧ (∀ c : Card, Card.make r s = .ok c →
        c.rank = r ∧ 1 ≤ c.rank ∧ c.rank ≤ 13) := by
  refine ⟨fun h => ?_, fun h1 h2 => ?_, fun c hc => ?_⟩
  · unfold Card.make
    rw [if_pos (show r < 1 ∨ r > 13 by omega)]
  · unfold Card.make
    rw [if_neg (show ¬ (r < 1 ∨ r > 13) by omega)]
  · unfold Card.make at hc
    split at hc
    · exact absurd hc (by simp)
    · rename_i hcond
      simp only [Except.ok.injEq] at hc
      subst hc
      exact ⟨rfl, show (1 : ℤ) ≤ r by omega, show r ≤ 13 by omega⟩

/-- C9 (witness): rank 0 is rejected, rank 5 is stored as given. -/
theorem C9_rank_validation_witness :
    Card.make 0 Suit.hearts = .error "Card rank must be between 1 and 13"
    ∧ Card.make 5 Suit.hearts = .ok ⟨5, Suit.hearts⟩ :=
  ⟨(C9_rank_validation 0 Suit.hearts).1 (Or.inl (by norm_num)),
   (C9_rank_validation 5 Suit.hearts).2.1 (by norm_num) (by norm_num)⟩

/-- C10: `Player.bet` never checks positivity — any amount at most the
balance succeeds and debits it, so a negative amount succeeds and strictly
increases the balance. -/
theorem C10_bet_no_positivity_check (balance amount : ℚ)
    (h : amount ≤ balance) :
    Player.bet balance amount = (true, balance - amount)
    ∧ (amount < 0 → balance < balance - amount) :=
  ⟨Player.bet_of_le balance amount h, fun hneg => by linarith⟩

/-- C10 (witness): betting −50 on a balance of 100 succeeds and raises the
balance to 150. -/
theorem C10_bet_no_positivity_witness :
    Player.bet 100 (-50) = (true, 100 - (-50))
    ∧ ((-50 : ℚ) < 0 → (100 : ℚ) < 100 - (-50)) :=
  C10_bet_no_positivity_check 100 (-50) (by norm_num)

/-- C3: a player natural against a non-natural dealer hand wins immediately
with a 2.5× total return, so the balance rises by a net 1.5× the bet. -/
theorem C3_player_natural_payout (balance bet : ℚ) (p1 d1 p2 d2 : Card)
    (deck : List Card) (actions : List String)
    (hbet : bet ≤ balance)
    (hp : Hand.is_blackjack [p1, p2] = true)
    (hd : Hand.is_blackjack [d1, d2] = false) :
    play_round balance bet (p1 :: d1 :: p2 :: d2 :: deck) actions =
      some ⟨"Win", balance + bet * 1.5, [p1, p2], [d1, d2], deck⟩ := by
  have hb := Player.bet_of_le balance bet hbet
  have harith : balance - bet + bet * 2.5 = balance + bet * 1.5 := by ring
  simp [play_round, hb, hp, hd, harith]

/-- C3 (witness): Ace–King against 10–7 at a 100 bet on 1000 pays to 1150. -/
theorem C3_player_natural_witness :
    play_round 1000 100
      [⟨1, Suit.hearts⟩, ⟨10, Suit.hearts⟩, ⟨13, Suit.spades⟩,
        ⟨7, Suit.hearts⟩] [] =
      some ⟨"Win", 1000 + 100 * 1.5,
        [⟨1, Suit.hearts⟩, ⟨13, Suit.spades⟩],
        [⟨10, Suit.hearts⟩, ⟨7, Suit.hearts⟩], []⟩ :=
  C3_player_natural_payout 1000 100 _ _ _ _ [] [] (by norm_num)
    (by decide) (by decide)

/-- C4: the dealer draws exactly while its score is below 17 and stops at or
above 17; its final standing score determines `"Bust"` exactly when it
exceeds 21, and a dealer bust ends the round with outcome `"Win"` and a net
balance gain equal to the bet. -/
theorem C4_dealer_threshold_and_bust_payout :
    (∀ (c : Card) (deck : List Card) (hand : Hand),
        Hand.calculate_score hand < 17 →
        dealer_turn (c :: deck) hand = dealer_turn deck (hand ++ [c]))
    ∧ (∀ (deck : List Card) (hand : Hand),
        17 ≤ Hand.calculate_score hand →
        dealer_turn deck hand =
          some (if 21 < Hand.calculate_score hand then "Bust" else "Stand",
            hand, deck))
    ∧ (∀ (deck : List Card) (hand : Hand) (res : String) (hand' : Hand)
        (deck' : List Card),
        dealer_turn deck hand = some (res, hand', deck') →
        17 ≤ Hand.calculate_score hand' ∧
          (res = "Bust" ↔ 21 < Hand.calculate_score hand'))
    ∧ (∀ (balance bet : ℚ) (p1 d1 p2 d2 : Card) (deck : List Card)
        (actions : List String) (pHand : Hand) (deck2 : List Card)
        (dHand : Hand) (deck3 : List Card),
        bet ≤ balance →
        Hand.is_blackjack [p1, p2] = false →
        player_turn deck actions [p1, p2] = some ("Stand", pHand, deck2) →
        dealer_turn deck2 [d1, d2] = some ("Bust", dHand, deck3) →
        play_round balance bet (p1 :: d1 :: p2 :: d2 :: deck) actions =
          some ⟨"Win", balance + bet, pHand, dHand, deck3⟩) := by
  refine ⟨dealer_turn_hit, dealer_turn_stop, dealer_turn_final, ?_⟩
  intro balance bet p1 d1 p2 d2 deck actions pHand deck2 dHand deck3
    hbet hp hpt hdt
  have hb := Player.bet_of_le balance bet hbet
  have harith : balance - bet + bet * 2 = balance + bet := by ring
  simp [play_round, hb, hp, hpt, hdt, harith]

/-- C4 (witness): the player stands on 20, the dealer draws 16 → 22 and
busts, and the 100 bet on 1000 comes back doubled. -/
theorem C4_dealer_bust_witness :
    play_round 1000 100
      [⟨10, Suit.hearts⟩, ⟨10, Suit.diamonds⟩, ⟨10, Suit.spades⟩,
        ⟨6, Suit.diamonds⟩, ⟨6, Suit.hearts⟩] ["s"] =
      some ⟨"Win", 1000 + 100,
        [⟨10, Suit.hearts⟩, ⟨10, Suit.spades⟩],
        [⟨10, Suit.diamonds⟩, ⟨6, Suit.diamonds⟩, ⟨6, Suit.hearts⟩], []⟩ :=
  C4_dealer_threshold_and_bust_payout.2.2.2 1000 100 ⟨10, Suit.hearts⟩
    ⟨10, Suit.diamonds⟩ ⟨10, Suit.spades⟩ ⟨6, Suit.diamonds⟩
    [⟨6, Suit.hearts⟩] ["s"] [⟨10, Suit.hearts⟩, ⟨10, Suit.spades⟩]
    [⟨6, Suit.hearts⟩]
    [⟨10, Suit.diamonds⟩, ⟨6, Suit.diamonds⟩, ⟨6, Suit.hearts⟩] []
    (by norm_num) (by decide) (by decide) (by decide)

/-- C5: when the player stands and the dealer stands (both final hands at or
below 21), the round resolves by score comparison: strictly higher player
score wins a net `+bet`, strictly lower loses the bet, and a tie pushes with
the bet refunded exactly. -/
theorem C5_resolution_by_comparison (balance bet : ℚ) (p1 d1 p2 d2 : Card)
    (deck : List Card) (actions : List String)
    (pHand : Hand) (deck2 : List Card) (dHand : Hand) (deck3 : List Card)
    (hbet : bet ≤ balance)
    (hp : Hand.is_blackjack [p1, p2] = false)
    (hpt : player_turn deck actions [p1, p2] = some ("Stand", pHand, deck2))
    (hdt : dealer_turn deck2 [d1, d2] = some ("Stand", dHand, deck3))
    (_hps : Hand.calculate_score pHand ≤ 21)
    (_hds : Hand.calculate_score dHand ≤ 21) :
    play_round balance bet (p1 :: d1 :: p2 :: d2 :: deck) actions =
      some (compare_hands (balance - bet) bet pHand dHand deck3)
    ∧ (Hand.calculate_score dHand < Hand.calculate_score pHand →
        compare_hands (balance - bet) bet pHand dHand deck3 =
          ⟨"Win", balance + bet, pHand, dHand, deck3⟩)
    ∧ (Hand.calculate_score pHand < Hand.calculate_score dHand →
        compare_hands (balance - bet) bet pHand dHand deck3 =
          ⟨"Lose", balance - bet, pHand, dHand, deck3⟩)
    ∧ (Hand.calculate_score pHand = Hand.calculate_score dHand →
        compare_hands (balance - bet) bet pHand dHand deck3 =
          ⟨"Push", balance, pHand, dHand, deck3⟩) := by
  have hb := Player.bet_of_le balance bet hbet
  refine ⟨?_, ?_, ?_, ?_⟩
  · simp [play_round, hb, hp, hpt, hdt]
  · intro h
    have harith : balance - bet + bet * 2 = balance + bet := by ring
    simp only [compare_hands]
    rw [if_pos h, harith]
  · intro h
    simp only [compare_hands]
    rw [if_neg (by omega), if_pos h]
  · intro h
    have harith : balance - bet + bet = balance := by ring
    simp only [compare_hands]
    rw [if_neg (by omega), if_neg (by omega), harith]

/-- C5 (witness): 19 against 19 resolves to `"Push"` with the 1000 balance
restored exactly. -/
theorem C5_push_witness :
    play_round 1000 100
      [⟨10, Suit.hearts⟩, ⟨10, Suit.diamonds⟩, ⟨9, Suit.spades⟩,
        ⟨9, Suit.diamonds⟩] ["s"] =
      some (compare_hands (1000 - 100) 100
        [⟨10, Suit.hearts⟩, ⟨9, Suit.spades⟩]
        [⟨10, Suit.diamonds⟩, ⟨9, Suit.diamonds⟩] [])
    ∧ compare_hands (1000 - 100) 100
        [⟨10, Suit.hearts⟩, ⟨9, Suit.spades⟩]
        [⟨10, Suit.diamonds⟩, ⟨9, Suit.diamonds⟩] [] =
        ⟨"Push", 1000, [⟨10, Suit.hearts⟩, ⟨9, Suit.spades⟩],
          [⟨10, Suit.diamonds⟩, ⟨9, Suit.diamonds⟩], []⟩ := by
  have h := C5_resolution_by_comparison 1000 100 ⟨10, Suit.hearts⟩
    ⟨10, Suit.diamonds⟩ ⟨9, Suit.spades⟩ ⟨9, Suit.diamonds⟩ [] ["s"]
    [⟨10, Suit.hearts⟩, ⟨9, Suit.spades⟩] []
    [⟨10, Suit.diamonds⟩, ⟨9, Suit.diamonds⟩] []
    (by norm_num) (by decide) (by decide) (by decide) (by decide) (by decide)
  exact ⟨h.1, h.2.2.2 (by decide)⟩

/-- C6: after a reset with `n ≥ 1` decks and any permutation as the shuffle,
the deck holds `52 n` cards with every valid rank–suit pair occurring exactly
`n` times; drawing `52 n` times empties it returning exactly that multiset;
and one more draw on the empty deck does not fail — it behaves as a draw from
a freshly rebuilt, reshuffled full deck and returns a card. -/
theorem C6_deck_full_multiset_and_reshuffle (n : ℕ)
    (shuffle : List Card → List Card) (hn : 1 ≤ n)
    (hshuffle : ∀ l, (shuffle l).Perm l) :
    ((Deck.reset ⟨n, []⟩ shuffle).cards.length = 52 * n)
    ∧ (∀ c : Card, 1 ≤ c.rank → c.rank ≤ 13 →
        (Deck.reset ⟨n, []⟩ shuffle).cards.count c = n)
    ∧ (∃ draws : List Card,
        Deck.drawMany (52 * n) (Deck.reset ⟨n, []⟩ shuffle) shuffle =
          some (draws, ⟨n, []⟩) ∧ draws.Perm (freshCards n))
    ∧ Deck.draw_card ⟨n, []⟩ shuffle =
        Deck.draw_card ⟨n, shuffle (freshCards n)⟩ shuffle
    ∧ (Deck.draw_card ⟨n, []⟩ shuffle).isSome = true := by
  have hperm := hshuffle (freshCards n)
  have hlen : (shuffle (freshCards n)).length = 52 * n := by
    rw [hperm.length_eq, freshCards_length]
  have hne : shuffle (freshCards n) ≠ [] := by
    intro h
    rw [h] at hlen
    simp at hlen
    omega
  have hie : (shuffle (freshCards n)).isEmpty = false :=
    List.isEmpty_eq_false.mpr hne
  have heq : Deck.draw_card ⟨n, []⟩ shuffle =
      Deck.draw_card ⟨n, shuffle (freshCards n)⟩ shuffle := by
    simp [Deck.draw_card, Deck.reset, hie]
  refine ⟨by simp [Deck.reset, hlen], ?_, ?_, heq, ?_⟩
  · intro c h1 h2
    simp only [Deck.reset]
    rw [hperm.count_eq c, freshCards_count n c h1 h2]
  · refine ⟨(shuffle (freshCards n)).reverse, ?_, ?_⟩
    · have hdraw := drawMany_exact n shuffle (shuffle (freshCards n)) hne
      rw [hlen] at hdraw
      simpa [Deck.reset] using hdraw
    · exact (List.reverse_perm _).trans hperm
  · rw [heq]
    rcases hg : (shuffle (freshCards n)).getLast? with - | c
    · exact absurd (List.getLast?_eq_none_iff.mp hg) hne
    · simp [Deck.draw_card, hie, hg]

/-- C6 (witness): one deck with the identity shuffle holds 52 cards. -/
theorem C6_deck_witness : (Deck.reset ⟨1, []⟩ id).cards.length = 52 * 1 :=
  (C6_deck_full_multiset_and_reshuffle 1 id (by norm_num)
    (fun l => List.Perm.refl l)).1
